import Mathlib

/-!
Shallow embedding of the Elasticsearch wrapper modules of this repository
(`langchain/es_engine.py`, `langchain/elasticsearch.py`).

Python dictionaries are modelled as association lists of key/value pairs in
insertion order; JSON-like values as the inductive type `JVal`.  Python
exceptions are modelled with `Except PyError`; a `PyError.crash` stands for an
unhandled `KeyError` / `TypeError` / `AttributeError` on a malformed structure.
-/

namespace LangchainES

/-- JSON-like values (the shapes the Python code passes around as dicts,
lists, strings, ints, bools and None). -/
inductive JVal where
  | str  : String → JVal
  | num  : Int → JVal
  | bool : Bool → JVal
  | null : JVal
  | arr  : List JVal → JVal
  | obj  : List (String × JVal) → JVal

/-- Python dict key lookup on an association list (first binding wins,
as in a dict whose keys are unique). -/
def lookupJ : List (String × JVal) → String → Option JVal
  | [], _ => none
  | (k, v) :: rest, key => if k = key then some v else lookupJ rest key

mutual

/-- Structural size of a `JVal` / of dict entries, used as recursion fuel. -/
def jsize : JVal → Nat
  | .str _ => 1
  | .num _ => 1
  | .bool _ => 1
  | .null => 1
  | .arr l => 1 + jsizeArr l
  | .obj l => 1 + jsizeObj l

def jsizeArr : List JVal → Nat
  | [] => 0
  | v :: rest => 1 + jsize v + jsizeArr rest

def jsizeObj : List (String × JVal) → Nat
  | [] => 0
  | (_, v) :: rest => 1 + jsize v + jsizeObj rest

end

/-- Python dict assignment `d[k] = v`: update the existing binding in place
(keeping its position) or append a new one at the end. -/
def dictInsert (d : List (String × JVal)) (k : String) (v : JVal) :
    List (String × JVal) :=
  if d.any (fun p => p.1 = k) then
    d.map (fun p => if p.1 = k then (k, v) else p)
  else
    d ++ [(k, v)]

/-- Python `".".join(parts)`: empty string for `[]`, the single element for a
singleton, and the elements separated by `"."` otherwise. -/
def dotJoin : List String → String
  | [] => ""
  | [s] => s
  | s :: rest => s ++ "." ++ dotJoin rest

/-- The recursive worker of `find_fields` (`es_engine.py`, the inner
`_find_fields` closure).  Walks the entries of a mapping dict in order:
a dict value with a `properties` key descends with the path extended by the
current key; otherwise a dict value with a `type` key records
`".".join(path + [key]) -> value["type"]` and, when a `fields` key is also
present, descends into it under the same extended path.  Non-dict values are
skipped.  A non-dict under `properties` / `fields` crashes in Python
(`.items()` on a non-dict), modelled as `.error ()`.

The extra `fuel` argument is a totality device for Lean: every recursive call
is on a dict of strictly smaller `jsizeObj` (`lookupJ_jsize`), so starting the
fuel at `jsizeObj` of the mapping (as `find_fields` does) the `fuel = 0`
branch is unreachable. -/
def findFieldsGo :
    List (String × JVal) → Nat → List String → List (String × JVal) →
        Except Unit (List (String × JVal))
  | [], _, _, acc => .ok acc
  | _ :: _, 0, _, _ => .error ()
  | (key, value) :: rest, fuel + 1, path, acc =>
    match value with
    | .obj inner =>
      match lookupJ inner "properties" with
      | some (.obj pents) =>
        match findFieldsGo pents fuel (path ++ [key]) acc with
        | .error e => .error e
        | .ok acc2 => findFieldsGo rest fuel path acc2
      | some _ => .error ()
      | none =>
        match lookupJ inner "type" with
        | some t =>
          let acc1 := dictInsert acc (dotJoin (path ++ [key])) t
          match lookupJ inner "fields" with
          | some (.obj fents) =>
            match findFieldsGo fents fuel (path ++ [key]) acc1 with
            | .error e => .error e
            | .ok acc2 => findFieldsGo rest fuel path acc2
          | some _ => .error ()
          | none => findFieldsGo rest fuel path acc1
        | none => findFieldsGo rest fuel path acc
    | _ => findFieldsGo rest fuel path acc

/-- `find_fields(mapping)` from `es_engine.py`: flatten a mapping dict into
a dict from dotted field path to declared type. -/
def find_fields (mapping : List (String × JVal)) :
    Except Unit (List (String × JVal)) :=
  findFieldsGo mapping (jsizeObj mapping) [] []

/-- The single-quote character, used by Python `repr` for strings. -/
def squo : String := String.singleton (Char.ofNat 39)

mutual

/-- Python `repr` of a JSON-like value (what an f-string like `f"{d}"`
produces for a dict / list / scalar). -/
def pyReprJ : JVal → String
  | .str s => squo ++ s ++ squo
  | .num n => toString n
  | .bool b => if b then "True" else "False"
  | .null => "None"
  | .arr l => "[" ++ pyReprArr l ++ "]"
  | .obj l => "\x7b" ++ pyReprObj l ++ "\x7d"

def pyReprArr : List JVal → String
  | [] => ""
  | [v] => pyReprJ v
  | v :: rest => pyReprJ v ++ ", " ++ pyReprArr rest

def pyReprObj : List (String × JVal) → String
  | [] => ""
  | [(k, v)] => squo ++ k ++ squo ++ ": " ++ pyReprJ v
  | (k, v) :: rest => squo ++ k ++ squo ++ ": " ++ pyReprJ v ++ ", " ++ pyReprObj rest

end

/-- The Python exceptions the engine code can raise.  The `ValueError`s of
`es_engine.py` are split by raise site, each carrying the set of names its
message interpolates; `searchError` is any exception escaping
`Elasticsearch.search`; `crash` is an unhandled `KeyError` / `TypeError` /
`AttributeError` on a malformed structure. -/
inductive PyError where
  | bothIncludeIgnore : PyError
  | includeNotFound : Finset String → PyError
  | ignoreNotFound : Finset String → PyError
  | indexNamesNotFound : Finset String → PyError
  | searchError : String → PyError
  | crash : PyError
deriving DecidableEq

/-- The snapshot of the backing store that the `Elasticsearch` client object
exposes to `ESEngine`: the index names listed by
`indices.get_alias(index="*", expand_wildcards="open")`, the datastream names
listed by `indices.get_data_stream(name="*")`, the response of
`indices.get_mapping(index=name)`, and the response (or raised exception
message) of `search(index=name, body=body)`. -/
structure Connection where
  aliasIndexNames : List String
  datastreamNames : List String
  mappingResponse : String → JVal
  searchResponse : String → JVal → Except String JVal

/-- The state of a constructed `ESEngine` (`es_engine.py`). -/
structure ESEngine where
  connection : Connection
  allIndices : Finset String
  includeIndices : Finset String
  ignoreIndices : Finset String
  usableIndices : Finset String
  sampleDocsInIndexInfo : Int
  customIndexInfo : Option (List (String × String))

/-- The names discovered at construction: all indices from wildcard
expansion, plus all datastream names when datastream support is enabled
(`ESEngine.__init__`, `self._all_indices`). -/
def discoveredIndices (connection : Connection) (datastreamSupport : Bool) :
    Finset String :=
  (connection.aliasIndexNames ++
    (if datastreamSupport then connection.datastreamNames else [])).toFinset

/-- The `custom_index_info` retained by `ESEngine.__init__`: when the
supplied dict is truthy, only the entries whose key is also present in the
database are kept (unknown keys are silently discarded, no error). -/
def filterCustom (customIndexInfo : Option (List (String × String)))
    (allIndices : Finset String) : Option (List (String × String)) :=
  match customIndexInfo with
  | none => none
  | some l =>
    if l = [] then some l
    else some (l.filter (fun p => p.1 ∈ allIndices))

/-- The `_usable_indices` field set by `ESEngine.__init__`:
`get_usable_index_names()` if non-empty, else all indices. -/
def usableAtConstruction (inc ign allIndices : Finset String) :
    Finset String :=
  if (if inc ≠ ∅ then inc else allIndices \ ign) ≠ ∅ then
    (if inc ≠ ∅ then inc else allIndices \ ign)
  else allIndices

/-- `ESEngine.__init__`.  Checks the include/ignore filters in source order
(`ValueError` when both are supplied; `ValueError` listing the missing names
when a supplied filter mentions names outside the discovered set), derives
the usable set, and filters the custom index info down to the keys present
in the database.  (The `isinstance` checks on `sample_docs_in_index_info`
and `custom_index_info` cannot fail in this typed embedding.)  The engine is
an immutable value: no later operation modifies any of its fields. -/
def mkESEngine (connection : Connection)
    (ignoreIndices includeIndices : Option (List String))
    (sampleDocsInIndexInfo : Int)
    (customIndexInfo : Option (List (String × String)))
    (datastreamSupport : Bool) : Except PyError ESEngine :=
  if includeIndices.getD [] ≠ [] ∧ ignoreIndices.getD [] ≠ [] then
    .error .bothIncludeIgnore
  else if (includeIndices.getD []).toFinset ≠ ∅ ∧
      (includeIndices.getD []).toFinset \ discoveredIndices connection datastreamSupport ≠ ∅ then
    .error (.includeNotFound
      ((includeIndices.getD []).toFinset \ discoveredIndices connection datastreamSupport))
  else if (ignoreIndices.getD []).toFinset ≠ ∅ ∧
      (ignoreIndices.getD []).toFinset \ discoveredIndices connection datastreamSupport ≠ ∅ then
    .error (.ignoreNotFound
      ((ignoreIndices.getD []).toFinset \ discoveredIndices connection datastreamSupport))
  else
    .ok {
      connection := connection
      allIndices := discoveredIndices connection datastreamSupport
      includeIndices := (includeIndices.getD []).toFinset
      ignoreIndices := (ignoreIndices.getD []).toFinset
      usableIndices := usableAtConstruction
        (includeIndices.getD []).toFinset
        (ignoreIndices.getD []).toFinset
        (discoveredIndices connection datastreamSupport)
      sampleDocsInIndexInfo := sampleDocsInIndexInfo
      customIndexInfo := filterCustom customIndexInfo
        (discoveredIndices connection datastreamSupport) }

/-- `get_usable_index_names`: the include filter when non-empty, otherwise
all indices minus the ignore filter. -/
def getUsableIndexNames (e : ESEngine) : Finset String :=
  if e.includeIndices ≠ ∅ then e.includeIndices
  else e.allIndices \ e.ignoreIndices

/-- Python subscript `v[k]` on a value expected to be a dict: `KeyError` /
`TypeError` (modelled as `crash`) when the key is absent or the receiver is
not a dict. -/
def pyGetItem (v : JVal) (k : String) : Except PyError JVal :=
  match v with
  | .obj entries =>
    match lookupJ entries k with
    | some x => .ok x
    | none => .error .crash
  | _ => .error .crash

/-- Python `v.get(k, {})` on a value expected to be a dict: the bound value,
`{}` when the key is absent, `AttributeError` (modelled as `crash`) when the
receiver is not a dict. -/
def pyGetD (v : JVal) (k : String) : Except PyError JVal :=
  match v with
  | .obj entries => .ok ((lookupJ entries k).getD (.obj []))
  | _ => .error .crash

/-- `get_index_mapping`: the raw `indices.get_mapping(index=index_name)`
response. -/
def getIndexMapping (e : ESEngine) (indexName : String) : JVal :=
  e.connection.mappingResponse indexName

/-- `get_index_fields`: take the first key of the mapping response (`None`
when empty), drill into `.get(first_name, {}).get("mappings", {})
.get("properties", {})` and flatten with `find_fields`.  A non-dict response
or a non-dict `properties` value crashes in Python when iterated. -/
def getIndexFields (e : ESEngine) (indexName : String) :
    Except PyError (List (String × JVal)) :=
  match getIndexMapping e indexName with
  | .obj entries =>
    let firstVal : JVal :=
      match entries with
      | [] => .obj []
      | (k, _) :: _ => (lookupJ entries k).getD (.obj [])
    match pyGetD firstVal "mappings" with
    | .error err => .error err
    | .ok mappings =>
      match pyGetD mappings "properties" with
      | .error err => .error err
      | .ok props =>
        match props with
        | .obj pents =>
          match find_fields pents with
          | .ok fields => .ok fields
          | .error _ => .error .crash
        | _ => .error .crash
  | _ => .error .crash

/-- The body of the bounded match-all query `_get_sample_docs` sends:
`{"size": sample_docs_in_index_info, "query": {"match_all": {}}}`. -/
def sampleBody (e : ESEngine) : JVal :=
  .obj [("size", .num e.sampleDocsInIndexInfo),
        ("query", .obj [("match_all", .obj [])])]

/-- `[hit["_source"] for hit in l]`. -/
def extractSources : List JVal → Except PyError (List JVal)
  | [] => .ok []
  | h :: rest =>
    match pyGetItem h "_source" with
    | .error err => .error err
    | .ok src =>
      match extractSources rest with
      | .error err => .error err
      | .ok srcs => .ok (src :: srcs)

/-- `[hit["_source"] for hit in response["hits"]["hits"]]`.  Iterating an
empty dict or empty string yields no elements in Python; any other non-list
iterate crashes at `hit["_source"]` (or is not iterable at all). -/
def extractHitsSources (response : JVal) : Except PyError (List JVal) :=
  match pyGetItem response "hits" with
  | .error err => .error err
  | .ok outerHits =>
    match pyGetItem outerHits "hits" with
    | .error err => .error err
    | .ok hits =>
      match hits with
      | .arr l => extractSources l
      | .obj [] => .ok []
      | .str "" => .ok []
      | _ => .error .crash

/-- `_get_sample_docs`, instrumented: returns the extracted documents
together with the (index, body) search call it issued.  An exception from
`search` propagates. -/
def getSampleDocsT (e : ESEngine) (indexName : String) :
    Except PyError (List JVal × (String × JVal)) :=
  match e.connection.searchResponse indexName (sampleBody e) with
  | .error msg => .error (.searchError msg)
  | .ok response =>
    match extractHitsSources response with
    | .error err => .error err
    | .ok docs => .ok (docs, (indexName, sampleBody e))

/-- Lookup in a Python dict of strings. -/
def lookupStr : List (String × String) → String → Option String
  | [], _ => none
  | (k, v) :: rest, key => if k = key then some v else lookupStr rest key

/-- `self._custom_index_info and index in self._custom_index_info`, followed
by `self._custom_index_info[index]`: the registered override for an index,
when the override dict is truthy (not `None`, not empty) and has the key. -/
def customLookup (e : ESEngine) (indexName : String) : Option String :=
  match e.customIndexInfo with
  | none => none
  | some l => if l = [] then none else lookupStr l indexName

/-- `f"Index: {index}\nFields: {self.get_index_fields(index_name=index)}\n"`. -/
def mkBaseBlock (indexName : String) (fields : List (String × JVal)) :
    String :=
  "Index: " ++ indexName ++ "\nFields: " ++ pyReprJ (.obj fields) ++ "\n"

/-- The sample-documents block appended when sample docs were returned. -/
def sampleSection (docs : List JVal) : String :=
  "\n/*\nSample documents:\n" ++
    String.intercalate "\n" (docs.map pyReprJ) ++ "\n*/"

/-- The non-override body of the `get_index_info` loop: dump index name and
fields, then, when `sample_docs_in_index_info > 0`, fetch sample documents
and append the sample block if any came back.  Returns the block and the
search calls issued. -/
def describeDefault (e : ESEngine) (indexName : String) :
    Except PyError (String × List (String × JVal)) :=
  match getIndexFields e indexName with
  | .error err => .error err
  | .ok fields =>
    let indexInfo := mkBaseBlock indexName fields
    if e.sampleDocsInIndexInfo > 0 then
      match getSampleDocsT e indexName with
      | .error err => .error err
      | .ok (docs, call) =>
        if docs.isEmpty then .ok (indexInfo, [call])
        else .ok (indexInfo ++ sampleSection docs, [call])
    else .ok (indexInfo, [])

/-- One iteration of the `get_index_info` loop: the custom override verbatim
(issuing nothing) when registered, otherwise the default description. -/
def describeOneIndex (e : ESEngine) (indexName : String) :
    Except PyError (String × List (String × JVal)) :=
  match customLookup e indexName with
  | some info => .ok (info, [])
  | none => describeDefault e indexName

/-- The `get_index_info` loop over the requested names, accumulating the
per-index description blocks and the search calls issued, in order. -/
def describeLoop (e : ESEngine) : List String →
    Except PyError (List String × List (String × JVal))
  | [] => .ok ([], [])
  | indexName :: rest =>
    match describeOneIndex e indexName with
    | .error err => .error err
    | .ok (block, calls) =>
      match describeLoop e rest with
      | .error err => .error err
      | .ok (blocks, calls2) => .ok (block :: blocks, calls ++ calls2)

/-- The prologue of `get_index_info`: when names are supplied, any of them
outside `get_usable_index_names()` raises
`ValueError(f"index_names {missing_indices} not found in database")`;
when omitted, the usable set itself is iterated (a Python set has no
specified iteration order; this embedding fixes the sorted order). -/
def resolveIndexNames (e : ESEngine) : Option (List String) →
    Except PyError (List String)
  | some indexNames =>
    let missing := indexNames.toFinset \ getUsableIndexNames e
    if missing ≠ ∅ then .error (.indexNamesNotFound missing)
    else .ok indexNames
  | none => .ok ((getUsableIndexNames e).sort (· ≤ ·))

/-- `get_index_info`, instrumented with the list of search calls issued:
resolve the requested names, describe each index in order, and join the
blocks with a double newline. -/
def getIndexInfoT (e : ESEngine) (indexNames : Option (List String)) :
    Except PyError (String × List (String × JVal)) :=
  match resolveIndexNames e indexNames with
  | .error err => .error err
  | .ok names =>
    match describeLoop e names with
    | .error err => .error err
    | .ok (blocks, calls) => .ok (String.intercalate "\n\n" blocks, calls)

/-- `get_index_info(index_names)`: the formatted description string. -/
def get_index_info (e : ESEngine) (indexNames : Option (List String)) :
    Except PyError String :=
  (getIndexInfoT e indexNames).map Prod.fst

/-- `run`: pass the body verbatim to `search(index=index_name, body=body)`
and return the raw response (an exception propagates). -/
def run (e : ESEngine) (indexName : String) (body : JVal) :
    Except String JVal :=
  e.connection.searchResponse indexName body

/-- `run_no_throw`: like `run`, but any exception is converted into the
payload `{"error": str(e)}`. -/
def run_no_throw (e : ESEngine) (indexName : String) (body : JVal) : JVal :=
  match run e indexName body with
  | .ok result => result
  | .error msg => .obj [("error", .str msg)]

/-- Modelled from the spec: the document state of the backing store — documents
keyed by (index name, document id), plus a counter generating fresh ids for
`index` calls that supply no id. -/
structure ESStore where
  docs : List ((String × String) × JVal)
  nextId : Nat

/-- Lookup of a document by (index, id). -/
def storeLookup : List ((String × String) × JVal) → String × String →
    Option JVal
  | [], _ => none
  | (k, v) :: rest, key => if k = key then some v else storeLookup rest key

/-- Modelled from the spec: `es.index(index=index, id=doc_id, body=doc)` —
store the document under the given id (or a fresh one when `doc_id` is
`None`), replacing any previous document with that id, and return the
response dict carrying the assigned `"_id"`. -/
def esIndex (s : ESStore) (index : String) (docId : Option String)
    (doc : JVal) : JVal × ESStore :=
  let docIdStr := docId.getD (toString s.nextId)
  (.obj [("_id", .str docIdStr)],
   { docs := s.docs.filter (fun p => p.1 ≠ (index, docIdStr)) ++
       [((index, docIdStr), doc)]
     nextId := s.nextId + 1 })

/-- Modelled from the spec: `es.get(index=index, id=doc_id)` — a response
dict carrying the stored document under `"_source"`, or `NotFoundError`
(modelled as `.error ()`) when no such document exists. -/
def esGet (s : ESStore) (index docId : String) : Except Unit JVal :=
  match storeLookup s.docs (index, docId) with
  | some doc => .ok (.obj [("_source", doc)])
  | none => .error ()

/-- Modelled from the spec: `es.delete(index=index, id=doc_id)` — remove the
document, or `NotFoundError` when no such document exists. -/
def esDelete (s : ESStore) (index docId : String) : Except Unit ESStore :=
  if s.docs.any (fun p => p.1 = (index, docId)) then
    .ok { s with docs := s.docs.filter (fun p => p.1 ≠ (index, docId)) }
  else .error ()

/-- `ElasticSearchDatabase.index_document`:
`result = self.es.index(index=index, id=doc_id, body=doc)` then
`return result["_id"]`. -/
def index_document (s : ESStore) (index : String) (doc : JVal)
    (docId : Option String) : Except PyError (String × ESStore) :=
  let r := esIndex s index docId doc
  match pyGetItem r.1 "_id" with
  | .ok (.str docIdStr) => .ok (docIdStr, r.2)
  | _ => .error .crash

/-- `ElasticSearchDatabase.get_document_by_id`: `self.es.get(...)["_source"]`,
returning `None` when the store raises `NotFoundError`. -/
def get_document_by_id (s : ESStore) (index docId : String) : Option JVal :=
  match esGet s index docId with
  | .ok doc =>
    match pyGetItem doc "_source" with
    | .ok src => some src
    | .error _ => none
  | .error _ => none

/-- `ElasticSearchDatabase.delete_document_by_id`: direct delegation;
`NotFoundError` propagates. -/
def delete_document_by_id (s : ESStore) (index docId : String) :
    Except Unit ESStore :=
  esDelete s index docId

/-- A small concrete store snapshot: two open indices and one datastream;
every index maps one keyword field `a`; every search returns one hit. -/
def connW : Connection := {
  aliasIndexNames := ["idx1", "idx2"]
  datastreamNames := ["ds1"]
  mappingResponse := fun _ => .obj [("idx1", .obj [("mappings", .obj
    [("properties", .obj [("a", .obj [("type", .str "keyword")])])])])]
  searchResponse := fun _ _ => .ok (.obj [("hits", .obj [("hits",
    .arr [.obj [("_source", .obj [("a", .str "v1")])]])])]) }

/-- Like `connW` but every search raises (message `"parse error"`). -/
def connErr : Connection := { connW with
  searchResponse := fun _ _ => .error "parse error" }

/-- Like `connW` but every search returns an empty hit list. -/
def connEmpty : Connection := { connW with
  searchResponse := fun _ _ => .ok (.obj [("hits", .obj [("hits",
    .arr [])])]) }

/-- A concrete engine over `connW` with a custom override for `idx2`. -/
def engW : ESEngine := {
  connection := connW
  allIndices := {"idx1", "idx2", "ds1"}
  includeIndices := ∅
  ignoreIndices := ∅
  usableIndices := {"idx1", "idx2", "ds1"}
  sampleDocsInIndexInfo := 2
  customIndexInfo := some [("idx2", "custom info for idx2")] }

/-- `engW` with sample documents disabled. -/
def engW0 : ESEngine := { engW with sampleDocsInIndexInfo := 0 }

/-- `engW` over the store whose searches return no hits. -/
def engWEmpty : ESEngine := { engW with connection := connEmpty }

/-- A mapping that is one chain of nested `properties` keys ending in a leaf
`{"type": t}`:
`nestProps ["a", "b"] t = {"a": {"properties": {"b": {"type": t}}}}`. -/
def nestProps : List String → JVal → List (String × JVal)
  | [], _ => []
  | [p], t => [(p, .obj [("type", t)])]
  | p :: ps, t => [(p, .obj [("properties", .obj (nestProps ps t))])]

/-- The `fields` sub-mapping declaring one simple leaf per multi-field:
`{name: {"type": ty}, ...}`. -/
def subFieldsObj (fs : List (String × JVal)) : List (String × JVal) :=
  fs.map (fun q => (q.1, JVal.obj [("type", q.2)]))

/-- The concrete search response of `connW`. -/
def respW : JVal := .obj [("hits", .obj [("hits",
  .arr [.obj [("_source", .obj [("a", .str "v1")])]])])]

/-- `engW` over the store whose searches raise. -/
def engWErr : ESEngine := { engW with connection := connErr }

/-- The block `get_index_info` emits for one index when sampling is
disabled: the custom override verbatim, otherwise exactly the
`"Index: <name>\nFields: <FieldMap>\n"` text — no sample section, and no
search traffic (note that no part of this definition mentions the search
endpoint of the store). -/
def describeNoSample (e : ESEngine) (indexName : String) :
    Except PyError String :=
  match customLookup e indexName with
  | some info => .ok info
  | none =>
    match getIndexFields e indexName with
    | .error err => .error err
    | .ok fields => .ok (mkBaseBlock indexName fields)

/-- The loop of `get_index_info` rephrased with `describeNoSample`. -/
def noSampleLoop (e : ESEngine) : List String → Except PyError (List String)
  | [] => .ok []
  | indexName :: rest =>
    match describeNoSample e indexName with
    | .error err => .error err
    | .ok block =>
      match noSampleLoop e rest with
      | .error err => .error err
      | .ok blocks => .ok (block :: blocks)

/-! ### Theorems -/

theorem lookupJ_jsize {l : List (String × JVal)} {k : String} {v : JVal}
    (h : lookupJ l k = some v) : jsize v < jsizeObj l := by
  induction l with
  | nil => simp [lookupJ] at h
  | cons hd tl ih =>
    obtain ⟨k0, v0⟩ := hd
    rw [lookupJ] at h
    by_cases hk : k0 = k
    · simp [hk] at h
      subst h
      simp only [jsizeObj]
      omega
    · simp [hk] at h
      have := ih h
      simp only [jsizeObj]
      omega

example : dotJoin ["a", "b"] = String.intercalate "." ["a", "b"] := by rfl

example :
    find_fields [("a", .obj [("properties",
        .obj [("b", .obj [("type", .str "keyword")])])])] =
      .ok [("a.b", .str "keyword")] := by rfl

example :
    find_fields [("a", .obj [("type", .str "text"),
        ("fields", .obj [("raw", .obj [("type", .str "keyword")]),
                         ("en", .obj [("type", .str "text")])])])] =
      .ok [("a", .str "text"), ("a.raw", .str "keyword"),
           ("a.en", .str "text")] := by rfl

example : (get_index_info engW (some ["idx1", "idx2"])).isOk = true := by rfl

example : (get_index_info engW0 (some ["idx1", "idx2"])).isOk = true := by rfl

example : pyReprJ (.obj [("a.b", .str "keyword")]) =
    "\x7b" ++ squo ++ "a.b" ++ squo ++ ": " ++ squo ++ "keyword" ++ squo ++
      "\x7d" := by rfl

theorem dictInsert_eq_append {d : List (String × JVal)} {k : String}
    {v : JVal} (h : ∀ p ∈ d, p.1 ≠ k) : dictInsert d k v = d ++ [(k, v)] := by
  have hany : (d.any (fun p => p.1 = k)) = false := by
    rw [List.any_eq_false]
    intro p hp
    simpa using h p hp
  simp [dictInsert, hany]

theorem string_append_left_inj {k a b : String}
    (h : k ++ a = k ++ b) : a = b := by
  have hd := congrArg String.data h
  simp only [String.data_append] at hd
  have hab := List.append_cancel_left hd
  exact congrArg String.mk hab

theorem dot_append_ne_self {k a : String} : k ++ "." ++ a ≠ k := by
  intro h
  have hlen := congrArg String.length h
  have hdot : ("." : String).length = 1 := rfl
  simp only [String.length_append, hdot] at hlen
  omega

theorem findFieldsGo_nil (fuel : Nat) (path : List String)
    (acc : List (String × JVal)) : findFieldsGo [] fuel path acc = .ok acc := by
  cases fuel <;> rfl

theorem findFieldsGo_nestProps (ps : List String) :
    ∀ (p : String) (t : JVal) (fuel : Nat) (path : List String)
      (acc : List (String × JVal)),
      jsizeObj (nestProps (p :: ps) t) ≤ fuel →
      findFieldsGo (nestProps (p :: ps) t) fuel path acc =
        .ok (dictInsert acc (dotJoin (path ++ p :: ps)) t) := by
  induction ps with
  | nil =>
    intro p t fuel path acc hfuel
    obtain ⟨f, rfl⟩ : ∃ f, fuel = f + 1 := by
      refine ⟨fuel - 1, ?_⟩
      simp [nestProps, jsizeObj, jsize] at hfuel
      omega
    show findFieldsGo [] f path (dictInsert acc (dotJoin (path ++ [p])) t) =
      .ok (dictInsert acc (dotJoin (path ++ [p])) t)
    exact findFieldsGo_nil f path _
  | cons q ps ih =>
    intro p t fuel path acc hfuel
    obtain ⟨f, rfl⟩ : ∃ f, fuel = f + 1 := by
      refine ⟨fuel - 1, ?_⟩
      simp [nestProps, jsizeObj, jsize] at hfuel
      omega
    have hbound : jsizeObj (nestProps (q :: ps) t) ≤ f := by
      simp [nestProps, jsizeObj, jsize] at hfuel
      omega
    have hrec := ih q t f (path ++ [p]) acc hbound
    rw [List.append_assoc] at hrec
    show (match findFieldsGo (nestProps (q :: ps) t) f (path ++ [p]) acc with
      | .error e => (.error e : Except Unit (List (String × JVal)))
      | .ok acc2 => findFieldsGo [] f path acc2) =
      .ok (dictInsert acc (dotJoin (path ++ p :: q :: ps)) t)
    rw [hrec]
    exact findFieldsGo_nil f path _

theorem findFieldsGo_subFields (fs : List (String × JVal)) :
    ∀ (k : String) (fuel : Nat) (acc : List (String × JVal)),
      jsizeObj (subFieldsObj fs) ≤ fuel →
      (fs.map Prod.fst).Nodup →
      (∀ q ∈ fs, ∀ p ∈ acc, p.1 ≠ k ++ "." ++ q.1) →
      findFieldsGo (subFieldsObj fs) fuel [k] acc =
        .ok (acc ++ fs.map (fun q => (k ++ "." ++ q.1, q.2))) := by
  induction fs with
  | nil =>
    intro k fuel acc _ _ _
    simp [subFieldsObj, findFieldsGo]
  | cons q fs ih =>
    intro k fuel acc hfuel hnodup hdisj
    obtain ⟨f, rfl⟩ : ∃ f, fuel = f + 1 := by
      refine ⟨fuel - 1, ?_⟩
      simp [subFieldsObj, jsizeObj, jsize] at hfuel
      omega
    have hbound : jsizeObj (subFieldsObj fs) ≤ f := by
      simp [subFieldsObj, jsizeObj, jsize] at hfuel ⊢
      omega
    have hn : q.1 ∉ fs.map Prod.fst ∧ (fs.map Prod.fst).Nodup := by
      rw [List.map_cons, List.nodup_cons] at hnodup
      exact hnodup
    show findFieldsGo (subFieldsObj fs) f [k]
        (dictInsert acc (k ++ "." ++ q.1) q.2) =
      .ok (acc ++ (q :: fs).map (fun r => (k ++ "." ++ r.1, r.2)))
    rw [dictInsert_eq_append (fun p hp => hdisj q (by simp) p hp)]
    have hdisj2 : ∀ r ∈ fs, ∀ p ∈ acc ++ [(k ++ "." ++ q.1, q.2)],
        p.1 ≠ k ++ "." ++ r.1 := by
      intro r hr p hp
      rcases List.mem_append.mp hp with hpa | hpq
      · exact hdisj r (List.mem_cons_of_mem _ hr) p hpa
      · have hpq' : p = (k ++ "." ++ q.1, q.2) := by simpa using hpq
        subst hpq'
        intro hcontra
        have heq : q.1 = r.1 := string_append_left_inj hcontra
        exact hn.1 (heq ▸ List.mem_map_of_mem Prod.fst hr)
    rw [ih k f (acc ++ [(k ++ "." ++ q.1, q.2)]) hbound hn.2 hdisj2]
    simp

theorem find_fields_multiField (k : String) (t : JVal)
    (fs : List (String × JVal)) (hnodup : (fs.map Prod.fst).Nodup) :
    find_fields [(k, .obj [("type", t), ("fields", .obj (subFieldsObj fs))])] =
      .ok ((k, t) :: fs.map (fun q => (k ++ "." ++ q.1, q.2))) := by
  have hk : ∀ q ∈ fs, ∀ p ∈ [(k, t)], p.1 ≠ k ++ "." ++ q.1 := by
    intro q hq p hp
    have hp' : p = (k, t) := by simpa using hp
    subst hp'
    exact fun hc => dot_append_ne_self hc.symm
  unfold find_fields
  have hsz : jsizeObj [(k, JVal.obj [("type", t),
      ("fields", .obj (subFieldsObj fs))])] =
      (4 + jsize t + jsizeObj (subFieldsObj fs)) + 1 := by
    simp [jsizeObj, jsize]
    omega
  rw [hsz]
  show (match findFieldsGo (subFieldsObj fs)
      (4 + jsize t + jsizeObj (subFieldsObj fs)) [k] [(k, t)] with
    | .error e => (.error e : Except Unit (List (String × JVal)))
    | .ok acc2 => findFieldsGo []
        (4 + jsize t + jsizeObj (subFieldsObj fs)) [] acc2) =
    .ok ((k, t) :: fs.map (fun q => (k ++ "." ++ q.1, q.2)))
  rw [findFieldsGo_subFields fs k _ [(k, t)] (by omega) hnodup hk]
  exact findFieldsGo_nil _ _ _

/-- **C1**: flattening a mapping tree records a leaf reached through nested
`properties` keys under the dotted concatenation of the keys on the path
(so `{"a": {"properties": {"b": {"type": "keyword"}}}}` flattens to exactly
`{"a.b": "keyword"}`), and a leaf that also declares multi-field sub-fields
yields an entry for the parent path and an entry for each sub-field path. -/
theorem claim_C1_find_fields_flattening (p : String) (ps : List String)
    (t : JVal) (k : String) (t2 : JVal) (fs : List (String × JVal))
    (hnodup : (fs.map Prod.fst).Nodup) :
    find_fields (nestProps (p :: ps) t) = .ok [(dotJoin (p :: ps), t)] ∧
    find_fields [(k, .obj [("type", t2),
        ("fields", .obj (subFieldsObj fs))])] =
      .ok ((k, t2) :: fs.map (fun q => (k ++ "." ++ q.1, q.2))) := by
  refine ⟨?_, find_fields_multiField k t2 fs hnodup⟩
  have h := findFieldsGo_nestProps ps p t
    (jsizeObj (nestProps (p :: ps) t)) [] [] le_rfl
  unfold find_fields
  rw [h]
  rfl

/-- Witness for C1, at the concrete examples of the spec: the nested chain
`{"a": {"properties": {"b": {"type": "keyword"}}}}` and a two-sub-field
multi-field leaf. -/
theorem claim_C1_find_fields_flattening_witness :
    (([("raw", JVal.str "keyword"), ("en", JVal.str "text")].map
        Prod.fst).Nodup) ∧
    (find_fields (nestProps ["a", "b"] (.str "keyword")) =
        .ok [(dotJoin ["a", "b"], .str "keyword")] ∧
      find_fields [("a", .obj [("type", .str "text"),
          ("fields", .obj (subFieldsObj
            [("raw", .str "keyword"), ("en", .str "text")]))])] =
        .ok (("a", JVal.str "text") ::
          [("raw", JVal.str "keyword"), ("en", JVal.str "text")].map
            (fun q => ("a" ++ "." ++ q.1, q.2)))) :=
  ⟨by decide, claim_C1_find_fields_flattening "a" ["b"] (.str "keyword") "a"
    (.str "text") [("raw", .str "keyword"), ("en", .str "text")] (by decide)⟩

/-- **C2**: for every successfully constructed `ESEngine` and any
combination of include/ignore filter sets, `get_usable_index_names()`
returns the include filter set when it is non-empty, and otherwise the
discovered index set minus the ignore filter set. -/
theorem claim_C2_usable_index_names (connection : Connection)
    (ign inc : Option (List String)) (sd : Int)
    (ci : Option (List (String × String))) (ds : Bool)
    (hok : (mkESEngine connection ign inc sd ci ds).isOk = true) :
    (mkESEngine connection ign inc sd ci ds).map getUsableIndexNames =
      .ok (if (inc.getD []).toFinset ≠ ∅ then (inc.getD []).toFinset
        else discoveredIndices connection ds \ (ign.getD []).toFinset) := by
  unfold mkESEngine at hok ⊢
  split at hok
  · simp [Except.isOk, Except.toBool] at hok
  · split at hok
    · simp [Except.isOk, Except.toBool] at hok
    · split at hok
      · simp [Except.isOk, Except.toBool] at hok
      · rename_i h1 h2 h3
        rw [if_neg h1, if_neg h2, if_neg h3]
        simp [Except.map, getUsableIndexNames]

/-- Witness for C2: an engine constructed with an ignore filter over the
concrete store `connW`. -/
theorem claim_C2_usable_index_names_witness :
    (mkESEngine connW (some ["idx1"]) none 3 none true).isOk = true ∧
    (mkESEngine connW (some ["idx1"]) none 3 none true).map
        getUsableIndexNames =
      .ok (if ((none : Option (List String)).getD []).toFinset ≠ ∅ then
        ((none : Option (List String)).getD []).toFinset
        else discoveredIndices connW true \ (["idx1"].toFinset)) :=
  ⟨by decide, claim_C2_usable_index_names connW (some ["idx1"]) none 3 none
    true (by decide)⟩

/-- **C3**: `ESEngine` construction fails whenever both `include_indices`
and `ignore_indices` are supplied non-empty, and whenever a supplied include
or ignore name is absent from the discovered index set (wildcard expansion,
plus datastreams when enabled); in the missing-name cases, the error lists
exactly the missing names. -/
theorem claim_C3_construction_errors (connection : Connection)
    (ign inc : Option (List String)) (sd : Int)
    (ci : Option (List (String × String))) (ds : Bool) :
    (inc.getD [] ≠ [] ∧ ign.getD [] ≠ [] →
      mkESEngine connection ign inc sd ci ds = .error .bothIncludeIgnore) ∧
    (ign.getD [] = [] →
      (inc.getD []).toFinset \ discoveredIndices connection ds ≠ ∅ →
      mkESEngine connection ign inc sd ci ds =
        .error (.includeNotFound
          ((inc.getD []).toFinset \ discoveredIndices connection ds))) ∧
    (inc.getD [] = [] →
      (ign.getD []).toFinset \ discoveredIndices connection ds ≠ ∅ →
      mkESEngine connection ign inc sd ci ds =
        .error (.ignoreNotFound
          ((ign.getD []).toFinset \ discoveredIndices connection ds))) := by
  refine ⟨fun h => ?_, fun hign hmiss => ?_, fun hinc hmiss => ?_⟩
  · simp [mkESEngine, h]
  · have hinc : (inc.getD []).toFinset ≠ ∅ := by
      intro h0
      rw [h0] at hmiss
      simp at hmiss
    unfold mkESEngine
    rw [if_neg (by simp [hign]), if_pos ⟨hinc, hmiss⟩]
  · have hign : (ign.getD []).toFinset ≠ ∅ := by
      intro h0
      rw [h0] at hmiss
      simp at hmiss
    unfold mkESEngine
    rw [if_neg (by simp [hinc]), if_neg (by simp [hinc]),
      if_pos ⟨hign, hmiss⟩]

/-- Witness for C3: over `connW`, supplying both filters, an unknown include
name, and an unknown ignore name. -/
theorem claim_C3_construction_errors_witness :
    ((some ["idx1"] : Option (List String)).getD [] ≠ [] ∧
      (some ["idx2"] : Option (List String)).getD [] ≠ []) ∧
    mkESEngine connW (some ["idx2"]) (some ["idx1"]) 3 none true =
      .error .bothIncludeIgnore ∧
    (["missing"].toFinset \ discoveredIndices connW true ≠ ∅ ∧
      mkESEngine connW none (some ["missing"]) 3 none true =
        .error (.includeNotFound
          (["missing"].toFinset \ discoveredIndices connW true))) ∧
    (["gone"].toFinset \ discoveredIndices connW true ≠ ∅ ∧
      mkESEngine connW (some ["gone"]) none 3 none true =
        .error (.ignoreNotFound
          (["gone"].toFinset \ discoveredIndices connW true))) :=
  ⟨⟨by decide, by decide⟩,
   (claim_C3_construction_errors connW (some ["idx2"]) (some ["idx1"]) 3 none
     true).1 ⟨by decide, by decide⟩,
   ⟨by decide, (claim_C3_construction_errors connW none (some ["missing"]) 3
     none true).2.1 (by decide) (by decide)⟩,
   ⟨by decide, (claim_C3_construction_errors connW (some ["gone"]) none 3
     none true).2.2 (by decide) (by decide)⟩⟩

/-- Keys of every entry of the retained custom index info lie in the
discovered set (used by C10). -/
theorem filterCustom_keys (ci : Option (List (String × String)))
    (allIndices : Finset String) :
    ∀ p ∈ (filterCustom ci allIndices).getD [], p.1 ∈ allIndices := by
  intro p hp
  match ci with
  | none => simp [filterCustom] at hp
  | some l =>
    by_cases hl : l = []
    · subst hl
      simp [filterCustom] at hp
    · simp only [filterCustom, if_neg hl, Option.getD_some] at hp
      have hmem := (List.mem_filter.mp hp).2
      simpa using hmem

/-- **C10**: at construction, custom index-info overrides with unknown keys
are silently discarded — supplying overrides never causes an error — and
every constructed engine retains only override keys inside `all_indices`.
(The engine value is immutable in this embedding: no operation returns a
modified engine, so the override map is never mutated afterwards.) -/
theorem claim_C10_custom_overrides (connection : Connection)
    (ign inc : Option (List String)) (sd : Int)
    (ci : Option (List (String × String))) (ds : Bool) :
    (mkESEngine connection ign inc sd ci ds).isOk =
      (mkESEngine connection ign inc sd none ds).isOk ∧
    (∀ e, mkESEngine connection ign inc sd ci ds = .ok e →
      ∀ p ∈ e.customIndexInfo.getD [], p.1 ∈ e.allIndices) := by
  constructor
  · unfold mkESEngine
    split_ifs <;> rfl
  · intro e he
    unfold mkESEngine at he
    split at he
    · simp at he
    · split at he
      · simp at he
      · split at he
        · simp at he
        · injection he with he2
          subst he2
          exact filterCustom_keys ci (discoveredIndices connection ds)

/-- Witness for C10: overrides with one known key (`idx1`) and one unknown
key (`zzz`) over the concrete store `connW`. -/
theorem claim_C10_custom_overrides_witness :
    ((mkESEngine connW none none 3
        (some [("idx1", "info"), ("zzz", "discarded")]) true).isOk =
      (mkESEngine connW none none 3 none true).isOk) ∧
    (∃ e, mkESEngine connW none none 3
        (some [("idx1", "info"), ("zzz", "discarded")]) true = .ok e ∧
      ∀ p ∈ e.customIndexInfo.getD [], p.1 ∈ e.allIndices) := by
  have h := claim_C10_custom_overrides connW none none 3
    (some [("idx1", "info"), ("zzz", "discarded")]) true
  refine ⟨h.1, ?_⟩
  cases hm : mkESEngine connW none none 3
      (some [("idx1", "info"), ("zzz", "discarded")]) true with
  | ok e => exact ⟨e, rfl, h.2 e hm⟩
  | error err =>
    have hok : (mkESEngine connW none none 3
        (some [("idx1", "info"), ("zzz", "discarded")]) true).isOk =
        true := by decide
    rw [hm] at hok
    simp [Except.isOk, Except.toBool] at hok

/-- **C4**: `run` returns the raw response of the store unmodified, and
`run_no_throw` never raises: on search success it returns the same result as
`run`, and on any search failure it returns `{"error": <message>}`. -/
theorem claim_C4_run_and_run_no_throw (e : ESEngine) (indexName : String)
    (body : JVal) :
    run e indexName body = e.connection.searchResponse indexName body ∧
    (∀ result, e.connection.searchResponse indexName body = .ok result →
      run e indexName body = .ok result ∧
      run_no_throw e indexName body = result) ∧
    (∀ msg, e.connection.searchResponse indexName body = .error msg →
      run_no_throw e indexName body = .obj [("error", .str msg)]) := by
  refine ⟨rfl, fun result h => ⟨h, ?_⟩, fun msg h => ?_⟩
  · simp [run_no_throw, run, h]
  · simp [run_no_throw, run, h]

/-- Witness for C4: a successful search on `engW` and a failing search on
`engWErr`. -/
theorem claim_C4_run_and_run_no_throw_witness :
    (engW.connection.searchResponse "idx1" (.obj []) = .ok respW ∧
      run engW "idx1" (.obj []) = .ok respW ∧
      run_no_throw engW "idx1" (.obj []) = respW) ∧
    (engWErr.connection.searchResponse "idx1" (.obj []) =
        .error "parse error" ∧
      run_no_throw engWErr "idx1" (.obj []) =
        .obj [("error", .str "parse error")]) :=
  ⟨⟨rfl, (claim_C4_run_and_run_no_throw engW "idx1" (.obj [])).2.1 respW rfl⟩,
   ⟨rfl, (claim_C4_run_and_run_no_throw engWErr "idx1"
     (.obj [])).2.2 "parse error" rfl⟩⟩

/-- **C5**: requesting descriptions for a list containing any name outside
the usable set fails with the missing-names error before any description is
produced, and the error carries exactly the offending names. -/
theorem claim_C5_unknown_index_error (e : ESEngine)
    (indexNames : List String)
    (h : indexNames.toFinset \ getUsableIndexNames e ≠ ∅) :
    get_index_info e (some indexNames) =
      .error (.indexNamesNotFound
        (indexNames.toFinset \ getUsableIndexNames e)) := by
  simp [get_index_info, getIndexInfoT, resolveIndexNames, h, Except.map]

/-- Witness for C5: requesting `["x"]` on `engW`, whose usable set does not
contain `"x"`. -/
theorem claim_C5_unknown_index_error_witness :
    (["x"].toFinset \ getUsableIndexNames engW ≠ ∅) ∧
    get_index_info engW (some ["x"]) =
      .error (.indexNamesNotFound
        (["x"].toFinset \ getUsableIndexNames engW)) :=
  ⟨by decide, claim_C5_unknown_index_error engW ["x"] (by decide)⟩

theorem storeLookup_append_key {l : List ((String × String) × JVal)}
    {k : String × String} {v : JVal} (h : ∀ p ∈ l, p.1 ≠ k) :
    storeLookup (l ++ [(k, v)]) k = some v := by
  induction l with
  | nil => simp [storeLookup]
  | cons hd tl ih =>
    obtain ⟨k0, v0⟩ := hd
    rw [List.cons_append, storeLookup,
      if_neg (h (k0, v0) (List.mem_cons_self _ _))]
    exact ih (fun p hp => h p (List.mem_cons_of_mem _ hp))

theorem storeLookup_eq_none {l : List ((String × String) × JVal)}
    {k : String × String} (h : ∀ p ∈ l, p.1 ≠ k) :
    storeLookup l k = none := by
  induction l with
  | nil => rfl
  | cons hd tl ih =>
    obtain ⟨k0, v0⟩ := hd
    rw [storeLookup, if_neg (h (k0, v0) (List.mem_cons_self _ _))]
    exact ih (fun p hp => h p (List.mem_cons_of_mem _ hp))

/-- **C8**: indexing a document and then fetching it by the id returned from
`index_document` yields the same document content; after deleting it,
fetching by that id reports not-found (`None`) rather than silently
returning an empty or fallback result. -/
theorem claim_C8_document_roundtrip (s : ESStore) (index : String)
    (doc : JVal) (docId : Option String) :
    ∃ docIdStr s2, index_document s index doc docId = .ok (docIdStr, s2) ∧
      get_document_by_id s2 index docIdStr = some doc ∧
      ∃ s3, delete_document_by_id s2 index docIdStr = .ok s3 ∧
        get_document_by_id s3 index docIdStr = none := by
  refine ⟨docId.getD (toString s.nextId), (esIndex s index docId doc).2,
    rfl, ?_, ?_⟩
  · have hl : storeLookup (esIndex s index docId doc).2.docs
        (index, docId.getD (toString s.nextId)) = some doc := by
      refine storeLookup_append_key (fun p hp => ?_)
      simpa using (List.mem_filter.mp hp).2
    unfold get_document_by_id esGet
    rw [hl]
    rfl
  · have hany : ((esIndex s index docId doc).2.docs.any
        (fun p => p.1 = (index, docId.getD (toString s.nextId)))) = true := by
      show ((s.docs.filter (fun p => p.1 ≠ (index, docId.getD (toString s.nextId))) ++ [((index, docId.getD (toString s.nextId)), doc)]).any (fun p => p.1 = (index, docId.getD (toString s.nextId)))) = true
      simp
    have hdel : delete_document_by_id (esIndex s index docId doc).2 index
        (docId.getD (toString s.nextId)) =
        .ok { (esIndex s index docId doc).2 with
          docs := (esIndex s index docId doc).2.docs.filter
            (fun p => p.1 ≠ (index, docId.getD (toString s.nextId))) } := by
      unfold delete_document_by_id esDelete
      rw [if_pos hany]
    refine ⟨_, hdel, ?_⟩
    have hn : storeLookup ((esIndex s index docId doc).2.docs.filter
        (fun p => p.1 ≠ (index, docId.getD (toString s.nextId))))
        (index, docId.getD (toString s.nextId)) = none := by
      refine storeLookup_eq_none (fun p hp => ?_)
      simpa using (List.mem_filter.mp hp).2
    unfold get_document_by_id esGet
    rw [hn]

/-- `describeDefault` when the fields introspection fails. -/
theorem describeDefault_fields_error (e : ESEngine) (indexName : String)
    (err : PyError) (hf : getIndexFields e indexName = .error err) :
    describeDefault e indexName = .error err := by
  unfold describeDefault
  rw [hf]

/-- `describeDefault` with sampling disabled. -/
theorem describeDefault_no_samples (e : ESEngine) (indexName : String)
    (fields : List (String × JVal))
    (hf : getIndexFields e indexName = .ok fields)
    (hs : ¬e.sampleDocsInIndexInfo > 0) :
    describeDefault e indexName = .ok (mkBaseBlock indexName fields, []) := by
  unfold describeDefault
  rw [hf]
  show (if e.sampleDocsInIndexInfo > 0 then
      (match getSampleDocsT e indexName with
       | Except.error err => (Except.error err :
           Except PyError (String × List (String × JVal)))
       | Except.ok (docs, call) =>
         if docs.isEmpty then
           Except.ok (mkBaseBlock indexName fields, [call])
         else
           Except.ok (mkBaseBlock indexName fields ++ sampleSection docs,
             [call]))
    else Except.ok (mkBaseBlock indexName fields, [])) =
    .ok (mkBaseBlock indexName fields, [])
  rw [if_neg hs]

/-- `describeDefault` when the sample search raises. -/
theorem describeDefault_search_error (e : ESEngine) (indexName : String)
    (fields : List (String × JVal)) (err : PyError)
    (hf : getIndexFields e indexName = .ok fields)
    (hs : e.sampleDocsInIndexInfo > 0)
    (hsd : getSampleDocsT e indexName = .error err) :
    describeDefault e indexName = .error err := by
  unfold describeDefault
  rw [hf]
  show (if e.sampleDocsInIndexInfo > 0 then
      (match getSampleDocsT e indexName with
       | Except.error err => (Except.error err :
           Except PyError (String × List (String × JVal)))
       | Except.ok (docs, call) =>
         if docs.isEmpty then
           Except.ok (mkBaseBlock indexName fields, [call])
         else
           Except.ok (mkBaseBlock indexName fields ++ sampleSection docs,
             [call]))
    else Except.ok (mkBaseBlock indexName fields, [])) = .error err
  rw [if_pos hs, hsd]

/-- `describeDefault` when sampling is enabled and the sample search
succeeds: the base block, plus the sample section when any document came
back. -/
theorem describeDefault_compute (e : ESEngine) (indexName : String)
    (fields : List (String × JVal)) (docs : List JVal)
    (call : String × JVal)
    (hf : getIndexFields e indexName = .ok fields)
    (hs : e.sampleDocsInIndexInfo > 0)
    (hsd : getSampleDocsT e indexName = .ok (docs, call)) :
    describeDefault e indexName =
      if docs.isEmpty then .ok (mkBaseBlock indexName fields, [call])
      else .ok (mkBaseBlock indexName fields ++ sampleSection docs,
        [call]) := by
  unfold describeDefault
  rw [hf]
  show (if e.sampleDocsInIndexInfo > 0 then
      (match getSampleDocsT e indexName with
       | Except.error err => (Except.error err :
           Except PyError (String × List (String × JVal)))
       | Except.ok (docs, call) =>
         if docs.isEmpty then
           Except.ok (mkBaseBlock indexName fields, [call])
         else
           Except.ok (mkBaseBlock indexName fields ++ sampleSection docs,
             [call]))
    else Except.ok (mkBaseBlock indexName fields, [])) = _
  rw [if_pos hs, hsd]

/-- `describeOneIndex` with a registered override. -/
theorem describeOneIndex_custom (e : ESEngine) (indexName info : String)
    (hc : customLookup e indexName = some info) :
    describeOneIndex e indexName = .ok (info, []) := by
  unfold describeOneIndex
  rw [hc]

/-- `describeOneIndex` without an override. -/
theorem describeOneIndex_default (e : ESEngine) (indexName : String)
    (hc : customLookup e indexName = none) :
    describeOneIndex e indexName = describeDefault e indexName := by
  unfold describeOneIndex
  rw [hc]

/-- The shape of one successfully produced description block: the custom
override verbatim when one is registered, otherwise the
`"Index: <name>
Fields: <FieldMap>
"` block possibly followed by a sample
section. -/
theorem describeOneIndex_spec (e : ESEngine) (indexName : String)
    (block : String) (calls : List (String × JVal))
    (h : describeOneIndex e indexName = .ok (block, calls)) :
    (∀ info, customLookup e indexName = some info → block = info) ∧
    (customLookup e indexName = none →
      ∃ fields tail, getIndexFields e indexName = .ok fields ∧
        block = mkBaseBlock indexName fields ++ tail) := by
  cases hc : customLookup e indexName with
  | some info =>
    rw [describeOneIndex_custom e indexName info hc] at h
    injection h with h1
    have hb : block = info := (congrArg Prod.fst h1).symm
    refine ⟨fun info2 hinfo => ?_, fun hnone => ?_⟩
    · injection hinfo with h2
      rw [hb, h2]
    · cases hnone
  | none =>
    rw [describeOneIndex_default e indexName hc] at h
    refine ⟨fun info hinfo => ?_, fun _ => ?_⟩
    · cases hinfo
    · cases hf : getIndexFields e indexName with
      | error err =>
        rw [describeDefault_fields_error e indexName err hf] at h
        cases h
      | ok fields =>
        by_cases hs : e.sampleDocsInIndexInfo > 0
        · cases hsd : getSampleDocsT e indexName with
          | error err =>
            rw [describeDefault_search_error e indexName fields err hf hs
              hsd] at h
            cases h
          | ok dc =>
            obtain ⟨docs, call⟩ := dc
            rw [describeDefault_compute e indexName fields docs call hf hs
              hsd] at h
            by_cases hde : docs.isEmpty = true
            · rw [if_pos hde] at h
              injection h with h1
              exact ⟨fields, "", rfl, by
                rw [String.append_empty]
                exact (congrArg Prod.fst h1).symm⟩
            · rw [if_neg hde] at h
              injection h with h1
              exact ⟨fields, sampleSection docs, rfl,
                (congrArg Prod.fst h1).symm⟩
        · rw [describeDefault_no_samples e indexName fields hf hs] at h
          injection h with h1
          exact ⟨fields, "", rfl, by
            rw [String.append_empty]
            exact (congrArg Prod.fst h1).symm⟩

/-- The `get_index_info` loop yields one block per requested name, each of
the shape of `describeOneIndex_spec`. -/
theorem describeLoop_blocks (e : ESEngine) (names : List String) :
    ∀ (blocks : List String) (calls : List (String × JVal)),
      describeLoop e names = .ok (blocks, calls) →
      blocks.length = names.length ∧
      List.Forall₂ (fun indexName b =>
        (∀ info, customLookup e indexName = some info → b = info) ∧
        (customLookup e indexName = none →
          ∃ fields tail, getIndexFields e indexName = .ok fields ∧
            b = mkBaseBlock indexName fields ++ tail)) names blocks := by
  induction names with
  | nil =>
    intro blocks calls h
    unfold describeLoop at h
    injection h with h1
    injection h1 with hb hc2
    subst hb
    exact ⟨rfl, List.Forall₂.nil⟩
  | cons i rest ih =>
    intro blocks calls h
    unfold describeLoop at h
    cases h1 : describeOneIndex e i with
    | error err =>
      rw [h1] at h
      cases h
    | ok bc1 =>
      rw [h1] at h
      obtain ⟨block, cs⟩ := bc1
      cases h2 : describeLoop e rest with
      | error err =>
        rw [h2] at h
        cases h
      | ok bc2 =>
        rw [h2] at h
        obtain ⟨bs, cs2⟩ := bc2
        have hb : block :: bs = blocks := by
          injection h with h3
          exact congrArg Prod.fst h3
        rw [← hb]
        obtain ⟨hlen, hfa⟩ := ih bs cs2 h2
        exact ⟨by simp [hlen], List.Forall₂.cons
          (describeOneIndex_spec e i block cs h1) hfa⟩

/-- **C6**: for every valid request list, `get_index_info` emits one block
per requested index in the order supplied — the registered custom override
verbatim when one exists (skipping introspection), otherwise the
`"Index: <name>\nFields: <FieldMap>\n"` block (possibly followed by a sample
section) — joins the blocks with a double newline, and returns the empty
string for an empty request list. -/
theorem claim_C6_get_index_info_blocks (e : ESEngine)
    (indexNames : List String) (s : String)
    (hok : get_index_info e (some indexNames) = .ok s) :
    (∃ bs : List String,
      bs.length = indexNames.length ∧
      s = String.intercalate "\n\n" bs ∧
      List.Forall₂ (fun indexName b =>
        (∀ info, customLookup e indexName = some info → b = info) ∧
        (customLookup e indexName = none →
          ∃ fields tail, getIndexFields e indexName = .ok fields ∧
            b = mkBaseBlock indexName fields ++ tail))
        indexNames bs) ∧
    (indexNames = [] → s = "") := by
  unfold get_index_info getIndexInfoT at hok
  cases hr : resolveIndexNames e (some indexNames) with
  | error err =>
    rw [hr] at hok
    cases hok
  | ok names0 =>
    rw [hr] at hok
    have hnames : names0 = indexNames := by
      simp only [resolveIndexNames] at hr
      by_cases hm : indexNames.toFinset \ getUsableIndexNames e ≠ ∅
      · rw [if_pos hm] at hr
        cases hr
      · rw [if_neg hm] at hr
        injection hr with h
        exact h.symm
    rw [hnames] at hok
    have hok2 : Except.map Prod.fst
        (match describeLoop e indexNames with
         | Except.error err => (Except.error err :
             Except PyError (String × List (String × JVal)))
         | Except.ok (blocks, calls) =>
           Except.ok (String.intercalate "\n\n" blocks, calls)) =
        Except.ok s := hok
    cases hd : describeLoop e indexNames with
    | error err =>
      rw [hd] at hok2
      simp [Except.map] at hok2
    | ok bc =>
      rw [hd] at hok2
      obtain ⟨blocks, calls⟩ := bc
      have hs : s = String.intercalate "\n\n" blocks := by
        simp only [Except.map] at hok2
        injection hok2 with h1
        exact h1.symm
      obtain ⟨hlen, hfa⟩ := describeLoop_blocks e indexNames blocks calls hd
      refine ⟨⟨blocks, hlen, hs, hfa⟩, fun h0 => ?_⟩
      subst h0
      have hblocks : blocks = [] := by
        unfold describeLoop at hd
        injection hd with h1
        exact (congrArg Prod.fst h1).symm
      rw [hs, hblocks]
      rfl

/-- Witness for C6: requesting `["idx1", "idx2"]` on `engW`, where `idx2`
has a registered override. -/
theorem claim_C6_get_index_info_blocks_witness :
    ∃ s, get_index_info engW (some ["idx1", "idx2"]) = .ok s ∧
      ((∃ bs : List String,
        bs.length = (["idx1", "idx2"] : List String).length ∧
        s = String.intercalate "\n\n" bs ∧
        List.Forall₂ (fun indexName b =>
          (∀ info, customLookup engW indexName = some info → b = info) ∧
          (customLookup engW indexName = none →
            ∃ fields tail, getIndexFields engW indexName = .ok fields ∧
              b = mkBaseBlock indexName fields ++ tail))
          ["idx1", "idx2"] bs) ∧
      ((["idx1", "idx2"] : List String) = [] → s = "")) := by
  cases hm : get_index_info engW (some ["idx1", "idx2"]) with
  | ok s => exact ⟨s, rfl, claim_C6_get_index_info_blocks engW
      ["idx1", "idx2"] s hm⟩
  | error err =>
    have hok : (get_index_info engW (some ["idx1", "idx2"])).isOk = true := by
      rfl
    rw [hm] at hok
    simp [Except.isOk, Except.toBool] at hok

theorem describeOneIndex_no_samples (e : ESEngine) (indexName : String)
    (h0 : ¬e.sampleDocsInIndexInfo > 0) :
    describeOneIndex e indexName =
      (describeNoSample e indexName).map (fun b => (b, [])) := by
  cases hc : customLookup e indexName with
  | some info =>
    rw [describeOneIndex_custom e indexName info hc]
    unfold describeNoSample
    rw [hc]
    rfl
  | none =>
    rw [describeOneIndex_default e indexName hc]
    unfold describeNoSample
    rw [hc]
    cases hf : getIndexFields e indexName with
    | error err =>
      rw [describeDefault_fields_error e indexName err hf]
      rfl
    | ok fields =>
      rw [describeDefault_no_samples e indexName fields hf h0]
      rfl

theorem describeLoop_no_samples (e : ESEngine)
    (h0 : ¬e.sampleDocsInIndexInfo > 0) :
    ∀ names, describeLoop e names =
      (match noSampleLoop e names with
       | Except.error err => (Except.error err :
           Except PyError (List String × List (String × JVal)))
       | Except.ok blocks => Except.ok (blocks, [])) := by
  intro names
  induction names with
  | nil => rfl
  | cons i rest ih =>
    show (match describeOneIndex e i with
       | Except.error err => (Except.error err :
           Except PyError (List String × List (String × JVal)))
       | Except.ok (block, calls) =>
         match describeLoop e rest with
         | Except.error err => Except.error err
         | Except.ok (blocks, calls2) =>
           Except.ok (block :: blocks, calls ++ calls2)) =
      (match (match describeNoSample e i with
         | Except.error err => (Except.error err :
             Except PyError (List String))
         | Except.ok block =>
           match noSampleLoop e rest with
           | Except.error err => Except.error err
           | Except.ok blocks => Except.ok (block :: blocks)) with
       | Except.error err => (Except.error err :
           Except PyError (List String × List (String × JVal)))
       | Except.ok blocks => Except.ok (blocks, []))
    rw [describeOneIndex_no_samples e i h0, ih]
    cases describeNoSample e i with
    | error err => rfl
    | ok block =>
      cases noSampleLoop e rest with
      | error err => rfl
      | ok blocks => rfl

theorem getIndexInfoT_no_samples (e : ESEngine)
    (indexNames : Option (List String))
    (h0 : e.sampleDocsInIndexInfo = 0) :
    getIndexInfoT e indexNames =
      (match resolveIndexNames e indexNames with
       | Except.error err => (Except.error err :
           Except PyError (String × List (String × JVal)))
       | Except.ok names =>
         match noSampleLoop e names with
         | Except.error err => Except.error err
         | Except.ok blocks =>
           Except.ok (String.intercalate "\n\n" blocks, [])) := by
  have h0' : ¬e.sampleDocsInIndexInfo > 0 := by
    rw [h0]
    decide
  unfold getIndexInfoT
  cases hr : resolveIndexNames e indexNames with
  | error err => rfl
  | ok names =>
    show (match describeLoop e names with
       | Except.error err => (Except.error err :
           Except PyError (String × List (String × JVal)))
       | Except.ok (blocks, calls) =>
         Except.ok (String.intercalate "\n\n" blocks, calls)) =
      (match noSampleLoop e names with
       | Except.error err => Except.error err
       | Except.ok blocks =>
         Except.ok (String.intercalate "\n\n" blocks, []))
    rw [describeLoop_no_samples e h0' names]
    cases noSampleLoop e names with
    | error err => rfl
    | ok blocks => rfl

/-- **C7**: when the configured sample-document count is 0, `get_index_info`
issues no search call to the store (its instrumented trace is empty and its
result does not depend on the search endpoint of the store at all), and each
emitted block is the sample-free override-or-`"Index: ..."` text. -/
theorem claim_C7_no_sample_queries (e : ESEngine)
    (indexNames : Option (List String))
    (h0 : e.sampleDocsInIndexInfo = 0) :
    (getIndexInfoT e indexNames =
      (match resolveIndexNames e indexNames with
       | Except.error err => (Except.error err :
           Except PyError (String × List (String × JVal)))
       | Except.ok names =>
         match noSampleLoop e names with
         | Except.error err => Except.error err
         | Except.ok blocks =>
           Except.ok (String.intercalate "\n\n" blocks, []))) ∧
    (∀ g, getIndexInfoT
        { e with connection := { e.connection with searchResponse := g } }
        indexNames = getIndexInfoT e indexNames) := by
  refine ⟨getIndexInfoT_no_samples e indexNames h0, fun g => ?_⟩
  have hns : ∀ names, noSampleLoop
      { e with connection := { e.connection with searchResponse := g } }
      names = noSampleLoop e names := by
    intro names
    induction names with
    | nil => rfl
    | cons i rest ih =>
      unfold noSampleLoop
      rw [show describeNoSample
        { e with connection := { e.connection with searchResponse := g } }
        i = describeNoSample e i from rfl, ih]
  rw [getIndexInfoT_no_samples
    { e with connection := { e.connection with searchResponse := g } }
    indexNames h0, getIndexInfoT_no_samples e indexNames h0,
    show resolveIndexNames
      { e with connection := { e.connection with searchResponse := g } }
      indexNames = resolveIndexNames e indexNames from rfl]
  simp only [hns]

/-- Witness for C7: `engW0` (sample count 0) on a concrete request. -/
theorem claim_C7_no_sample_queries_witness :
    engW0.sampleDocsInIndexInfo = 0 ∧
    ((getIndexInfoT engW0 (some ["idx1", "idx2"]) =
      (match resolveIndexNames engW0 (some ["idx1", "idx2"]) with
       | Except.error err => (Except.error err :
           Except PyError (String × List (String × JVal)))
       | Except.ok names =>
         match noSampleLoop engW0 names with
         | Except.error err => Except.error err
         | Except.ok blocks =>
           Except.ok (String.intercalate "\n\n" blocks, []))) ∧
    (∀ g, getIndexInfoT
        { engW0 with connection :=
          { engW0.connection with searchResponse := g } }
        (some ["idx1", "idx2"]) =
      getIndexInfoT engW0 (some ["idx1", "idx2"]))) :=
  ⟨rfl, claim_C7_no_sample_queries engW0 (some ["idx1", "idx2"]) rfl⟩

theorem sampleSection_ne_empty (docs : List JVal) :
    sampleSection docs ≠ "" := by
  intro h
  unfold sampleSection at h
  have hlen := congrArg String.length h
  simp only [String.length_append] at hlen
  have h1 : ("\n/*\nSample documents:\n" : String).length = 22 := rfl
  have h2 : ("\n*/" : String).length = 3 := rfl
  have h3 : ("" : String).length = 0 := rfl
  rw [h1, h2, h3] at hlen
  omega

/-- **C9**: with a positive sample-document count, the description block of an index carries the `"/*"`-delimited sample section exactly when the bounded
match-all query returned at least one document. -/
theorem claim_C9_sample_block_iff_docs (e : ESEngine) (indexName : String)
    (docs : List JVal) (call : String × JVal)
    (fields : List (String × JVal))
    (hpos : e.sampleDocsInIndexInfo > 0)
    (hcustom : customLookup e indexName = none)
    (hfields : getIndexFields e indexName = .ok fields)
    (hdocs : getSampleDocsT e indexName = .ok (docs, call)) :
    describeOneIndex e indexName =
      .ok (mkBaseBlock indexName fields ++
        (if docs.isEmpty then "" else sampleSection docs), [call]) ∧
    (describeOneIndex e indexName =
        .ok (mkBaseBlock indexName fields, [call]) ↔ docs = []) := by
  have hmain : describeOneIndex e indexName =
      .ok (mkBaseBlock indexName fields ++
        (if docs.isEmpty then "" else sampleSection docs), [call]) := by
    rw [describeOneIndex_default e indexName hcustom,
      describeDefault_compute e indexName fields docs call hfields hpos
        hdocs]
    by_cases hde : docs.isEmpty = true
    · rw [if_pos hde, if_pos hde, String.append_empty]
    · rw [if_neg hde, if_neg hde]
  refine ⟨hmain, ?_, ?_⟩
  · intro hbase
    rw [hmain] at hbase
    injection hbase with h1
    have h2 : mkBaseBlock indexName fields ++
        (if docs.isEmpty then "" else sampleSection docs) =
        mkBaseBlock indexName fields := congrArg Prod.fst h1
    by_cases hde : docs.isEmpty = true
    · exact List.isEmpty_iff.mp hde
    · rw [if_neg hde] at h2
      exact absurd (string_append_left_inj
        (h2.trans (String.append_empty (mkBaseBlock indexName fields)).symm))
        (sampleSection_ne_empty docs)
  · intro hde
    subst hde
    rw [hmain]
    show Except.ok (mkBaseBlock indexName fields ++ "", [call]) = _
    rw [String.append_empty]

/-- Witness for C9: on `engW` (sample count 2) index `idx1` returns one
sample document, so the block carries the sample section; the iff holds. -/
theorem claim_C9_sample_block_iff_docs_witness :
    (engW.sampleDocsInIndexInfo > 0 ∧
      customLookup engW "idx1" = none ∧
      getIndexFields engW "idx1" = .ok [("a", .str "keyword")] ∧
      getSampleDocsT engW "idx1" =
        .ok ([.obj [("a", .str "v1")]], ("idx1", sampleBody engW))) ∧
    (describeOneIndex engW "idx1" =
      .ok (mkBaseBlock "idx1" [("a", .str "keyword")] ++
        (if ([JVal.obj [("a", .str "v1")]] : List JVal).isEmpty then ""
         else sampleSection [.obj [("a", .str "v1")]]),
        [("idx1", sampleBody engW)]) ∧
    (describeOneIndex engW "idx1" =
        .ok (mkBaseBlock "idx1" [("a", .str "keyword")],
          [("idx1", sampleBody engW)]) ↔
      ([JVal.obj [("a", .str "v1")]] : List JVal) = [])) :=
  ⟨⟨by decide, rfl, rfl, rfl⟩,
   claim_C9_sample_block_iff_docs engW "idx1" [.obj [("a", .str "v1")]]
     ("idx1", sampleBody engW) [("a", .str "keyword")] (by decide) rfl rfl
     rfl⟩

end LangchainES
